import Mathlib

/-
Verification of the transcript-to-training-example extraction pipeline of
the Friends character chatbot (friends_chatbot/friend_character_chatbox.py).

The embedding models the homegrown core of the file:
  - remove_paranthesis (line 17-19): re.sub of the non-greedy pattern
    matching an opening parenthesis, a lazy run of non-newline characters,
    and a closing parenthesis, replaced by the empty string;
  - load_data (lines 206-256): null-free transcript rows, dialogue
    cleaning, the number_of_words column computed by stripping whitespace
    and splitting on the literal single space character, the per-character
    response flags, the index selection, the prompt construction loop with
    its predecessor-bounds guard, and the single-column prompt dataset;
  - the constructor check of CharacterChatBot.__init__ (lines 33-34).

Strings are modelled by Lean String (a wrapper of List Char); the pandas
DataFrame after read_csv().dropna() is modelled as a list of rows with a
dense 0..N-1 index, together with two booleans recording whether the
required Speaker and Dialogue columns are present (a missing column makes
the corresponding column access raise a KeyError).  Python exceptions are
modelled by Except String; the diagnostic print of the builder loop is
modelled by a list of notice strings returned alongside the prompts.
-/

namespace Friends

/-- Scanner for the lazy regex body: given the characters following an
opening parenthesis, return the characters after the nearest closing
parenthesis, provided no newline occurs before it (a dot in the pattern
does not match a newline); otherwise none, meaning the match attempt at
that opening parenthesis fails. -/
def findClose : List Char → Option (List Char)
  | [] => none
  | c :: rest => if c = ')' then some rest else if c = '\n' then none else findClose rest

/-- One pass of re.sub with the non-greedy parenthesis pattern, with fuel
bounding the recursion depth.  At an opening parenthesis, the nearest
closing parenthesis on the same line ends the match and the whole span is
dropped; if the match attempt fails the opening parenthesis is kept and
scanning resumes at the next character.  Every other character is copied. -/
def rpFuel : Nat → List Char → List Char
  | 0, l => l
  | _ + 1, [] => []
  | fuel + 1, c :: rest =>
    if c = '(' then
      match findClose rest with
      | some rest2 => rpFuel fuel rest2
      | none => '(' :: rpFuel fuel rest
    else c :: rpFuel fuel rest

/-- remove_paranthesis of the source (line 17-19): substitute every match
of the non-greedy parenthetical pattern by the empty string. -/
def remove_paranthesis (s : String) : String :=
  String.mk (rpFuel s.data.length s.data)

/-- Decision procedure for the property that some substring matches the
parenthetical pattern: an opening parenthesis followed, with no
intervening newline, by a closing parenthesis. -/
def hasMatch : List Char → Bool
  | [] => false
  | c :: rest => ((c == '(') && (findClose rest).isSome) || hasMatch rest

theorem findClose_close (rest : List Char) : findClose (')' :: rest) = some rest := by
  simp [findClose]

theorem findClose_newline (rest : List Char) : findClose ('\n' :: rest) = none := by
  simp [findClose]

theorem findClose_cons_of_ne {c : Char} (rest : List Char) (hc : c ≠ ')') (hn : c ≠ '\n') :
    findClose (c :: rest) = findClose rest := by
  simp [findClose, hc, hn]

theorem rpFuel_open_some {rest rest2 : List Char} (fuel : Nat)
    (h : findClose rest = some rest2) :
    rpFuel (fuel + 1) ('(' :: rest) = rpFuel fuel rest2 := by
  simp [rpFuel, h]

theorem rpFuel_open_none {rest : List Char} (fuel : Nat) (h : findClose rest = none) :
    rpFuel (fuel + 1) ('(' :: rest) = '(' :: rpFuel fuel rest := by
  simp [rpFuel, h]

theorem rpFuel_cons_ne {c : Char} (fuel : Nat) (rest : List Char) (hop : c ≠ '(') :
    rpFuel (fuel + 1) (c :: rest) = c :: rpFuel fuel rest := by
  simp [rpFuel, hop]

theorem hasMatch_cons (c : Char) (rest : List Char) :
    hasMatch (c :: rest) = (((c == '(') && (findClose rest).isSome) || hasMatch rest) := rfl

theorem findClose_length : ∀ (l l2 : List Char), findClose l = some l2 → l2.length < l.length := by
  intro l
  induction l with
  | nil => intro l2 h; simp [findClose] at h
  | cons c rest ih =>
    intro l2 h
    by_cases hc : c = ')'
    · subst hc
      rw [findClose_close] at h
      cases h
      simp
    · by_cases hn : c = '\n'
      · subst hn
        rw [findClose_newline] at h
        cases h
      · rw [findClose_cons_of_ne rest hc hn] at h
        exact Nat.lt_trans (ih l2 h) (Nat.lt_succ_self _)

/-- If the match attempt fails on a suffix (no closing parenthesis before
a newline), it still fails on the cleaned form of that suffix. -/
theorem findClose_none_rpFuel :
    ∀ (fuel : Nat) (l : List Char), l.length ≤ fuel → findClose l = none →
      findClose (rpFuel fuel l) = none := by
  intro fuel
  induction fuel with
  | zero =>
    intro l hl h
    have hlen : l.length = 0 := Nat.le_zero.mp hl
    rw [List.length_eq_zero] at hlen
    subst hlen
    exact h
  | succ fuel ih =>
    intro l hl h
    cases l with
    | nil => simp [rpFuel, findClose]
    | cons c rest =>
      simp only [List.length_cons, Nat.succ_le_succ_iff] at hl
      by_cases hc : c = ')'
      · subst hc; rw [findClose_close] at h; cases h
      · by_cases hn : c = '\n'
        · subst hn
          rw [rpFuel_cons_ne fuel rest (by decide)]
          exact findClose_newline _
        · rw [findClose_cons_of_ne rest hc hn] at h
          by_cases hop : c = '('
          · subst hop
            rw [rpFuel_open_none fuel h]
            rw [findClose_cons_of_ne _ (by decide) (by decide)]
            exact ih rest hl h
          · rw [rpFuel_cons_ne fuel rest hop]
            rw [findClose_cons_of_ne _ hc hn]
            exact ih rest hl h

/-- The cleaned text contains no match of the parenthetical pattern. -/
theorem hasMatch_rpFuel :
    ∀ (fuel : Nat) (l : List Char), l.length ≤ fuel → hasMatch (rpFuel fuel l) = false := by
  intro fuel
  induction fuel with
  | zero =>
    intro l hl
    have hlen : l.length = 0 := Nat.le_zero.mp hl
    rw [List.length_eq_zero] at hlen
    subst hlen
    rfl
  | succ fuel ih =>
    intro l hl
    cases l with
    | nil => rfl
    | cons c rest =>
      simp only [List.length_cons, Nat.succ_le_succ_iff] at hl
      by_cases hop : c = '('
      · subst hop
        cases h : findClose rest with
        | some rest2 =>
          rw [rpFuel_open_some fuel h]
          exact ih rest2 (Nat.le_trans (Nat.le_of_lt (findClose_length rest rest2 h)) hl)
        | none =>
          rw [rpFuel_open_none fuel h]
          rw [hasMatch_cons, ih rest hl, findClose_none_rpFuel fuel rest hl h]
          rfl
      · rw [rpFuel_cons_ne fuel rest hop]
        rw [hasMatch_cons, ih rest hl]
        have : (c == '(') = false := by
          simpa using hop
        rw [this]
        rfl

/-- Text without an opening parenthesis is returned unchanged. -/
theorem rpFuel_id_of_no_open :
    ∀ (fuel : Nat) (l : List Char), l.length ≤ fuel → (∀ c ∈ l, c ≠ '(') →
      rpFuel fuel l = l := by
  intro fuel
  induction fuel with
  | zero =>
    intro l _ _
    rfl
  | succ fuel ih =>
    intro l hl h
    cases l with
    | nil => rfl
    | cons c rest =>
      simp only [List.length_cons, Nat.succ_le_succ_iff] at hl
      have hc : c ≠ '(' := h c (by simp)
      rw [rpFuel_cons_ne fuel rest hc]
      rw [ih rest hl (fun x hx => h x (by simp [hx]))]

/-- Characterization of a successful match attempt: the suffix decomposes
as a run without newlines, a closing parenthesis, and a remainder. -/
theorem findClose_isSome_iff :
    ∀ l : List Char, (findClose l).isSome = true ↔
      ∃ mid post : List Char, l = mid ++ ')' :: post ∧ '\n' ∉ mid := by
  intro l
  induction l with
  | nil =>
    simp only [findClose, Option.isSome_none, Bool.false_eq_true, false_iff]
    rintro ⟨mid, post, h, -⟩
    cases mid <;> simp at h
  | cons c rest ih =>
    by_cases hc : c = ')'
    · subst hc
      rw [findClose_close]
      simp only [Option.isSome_some, true_iff]
      exact ⟨[], rest, rfl, by simp⟩
    · by_cases hn : c = '\n'
      · subst hn
        rw [findClose_newline]
        simp only [Option.isSome_none, Bool.false_eq_true, false_iff]
        rintro ⟨mid, post, h, hnin⟩
        cases mid with
        | nil => simp at h
        | cons m ms =>
          simp only [List.cons_append, List.cons.injEq] at h
          exact hnin (by simp [← h.1])
      · rw [findClose_cons_of_ne rest hc hn, ih]
        constructor
        · rintro ⟨mid, post, h, hnin⟩
          exact ⟨c :: mid, post, by simp [h], by simp [hnin, Ne.symm hn]⟩
        · rintro ⟨mid, post, h, hnin⟩
          cases mid with
          | nil => simp at h; exact absurd h.1 hc
          | cons m ms =>
            simp only [List.cons_append, List.cons.injEq] at h
            refine ⟨ms, post, h.2, fun hmem => hnin ?_⟩
            simp [hmem]

/-- Characterization of containing a match of the parenthetical pattern. -/
theorem hasMatch_iff :
    ∀ l : List Char, hasMatch l = true ↔
      ∃ pre mid post : List Char,
        l = pre ++ '(' :: (mid ++ ')' :: post) ∧ '\n' ∉ mid := by
  intro l
  induction l with
  | nil =>
    simp only [hasMatch, Bool.false_eq_true, false_iff]
    rintro ⟨pre, mid, post, h, -⟩
    cases pre <;> simp at h
  | cons c rest ih =>
    rw [hasMatch_cons]
    simp only [Bool.or_eq_true, Bool.and_eq_true, beq_iff_eq]
    constructor
    · rintro (⟨hc, hsome⟩ | hrest)
      · obtain ⟨mid, post, heq, hnin⟩ := (findClose_isSome_iff rest).mp hsome
        exact ⟨[], mid, post, by simp [hc, heq], hnin⟩
      · obtain ⟨pre, mid, post, heq, hnin⟩ := ih.mp hrest
        exact ⟨c :: pre, mid, post, by simp [heq], hnin⟩
    · rintro ⟨pre, mid, post, heq, hnin⟩
      cases pre with
      | nil =>
        simp only [List.nil_append, List.cons.injEq] at heq
        refine Or.inl ⟨heq.1, (findClose_isSome_iff rest).mpr ⟨mid, post, heq.2, hnin⟩⟩
      | cons p ps =>
        simp only [List.cons_append, List.cons.injEq] at heq
        exact Or.inr (ih.mpr ⟨ps, mid, post, heq.2, hnin⟩)

/-- Whitespace characters removed by the Python str.strip method (the
ASCII ones; transcript text is ASCII). -/
def isPySpace (c : Char) : Bool :=
  c == ' ' || c == '\t' || c == '\n' || c == '\r' || c == '\x0b' || c == '\x0c'

/-- Python str.strip: drop leading and trailing whitespace. -/
def pyStrip (l : List Char) : List Char :=
  ((l.dropWhile isPySpace).reverse.dropWhile isPySpace).reverse

/-- Python str.split with the explicit separator a single space (line 211
uses .str.split with a one-space argument): the text is cut at every
space character, and empty segments are kept, so the empty string yields
one empty segment. -/
def splitOnSpace : List Char → List (List Char)
  | [] => [[]]
  | c :: rest =>
    match splitOnSpace rest with
    | [] => [[c]]
    | g :: gs => if c = ' ' then [] :: g :: gs else (c :: g) :: gs

/-- The number_of_words column of load_data (lines 211-212): strip the
cleaned dialogue, split it on the literal single space, and take the
length of the resulting list. -/
def number_of_words (s : String) : Nat :=
  (splitOnSpace (pyStrip s.data)).length

/-- One transcript row after read_csv().dropna(): the two columns the
pipeline reads. -/
structure Row where
  Speaker : String
  Dialogue : String
deriving Repr, DecidableEq, Inhabited

/-- Dialogue cleaning of line 210 applied to one row. -/
def cleanRow (r : Row) : Row :=
  { Speaker := r.Speaker, Dialogue := remove_paranthesis r.Dialogue }

/-- Dialogue cleaning of line 210 applied to the whole transcript. -/
def cleanRows (rows : List Row) : List Row := rows.map cleanRow

/-- Response flag of lines 226-229 for one character and one (cleaned)
row: the Speaker cell equals the character and the number_of_words cell
is strictly greater than 5. -/
def response_flag (character : String) (r : Row) : Bool :=
  (r.Speaker == character) && decide (5 < number_of_words r.Dialogue)

/-- Keys of the hardcoded character_models mapping (lines 214-221); a
response-flag column exists exactly for these characters. -/
def character_models_keys : List String :=
  ["Rachel", "Ross", "Chandler", "Monica", "Joey", "Phoebe"]

/-- Index selection of line 233: the indices of the (cleaned) transcript
whose response flag for the character is set and whose index is
positive, in transcript order. -/
def indexes_to_take (character : String) (df : List Row) : List Nat :=
  (List.range df.length).filter
    (fun i => response_flag character (df.getD i default) && decide (0 < i))

/-- System prompt of line 235, with its leading and trailing newline. -/
def system_prompt (character : String) : String :=
  "\nYou are " ++ character ++ " from the Friends TV Show. Your responses should reflect "
    ++ character ++ "\x27s personality and speech patterns.\n"

/-- Diagnostic message printed at line 246 for a flagged index whose
predecessor index is out of bounds. -/
def boundsNotice (i : Int) : String :=
  "Index " ++ toString i ++ " is out of bounds"

/-- Index validation of line 242: the predecessor index ind - 1 is inside
the valid row range of the table. -/
def hasValidPred (df : List Row) (ind : Int) : Bool :=
  decide (0 ≤ ind - 1 ∧ ind - 1 < (df.length : Int))

/-- Prompt construction loop of lines 237-251.  For each index, if the
predecessor index is inside the valid row range the prompt made of the
system prompt, the predecessor dialogue, a newline, and the current
dialogue is appended; otherwise the notice is printed and the index is
skipped.  Fetching a row at an out-of-range position (possible only for
the current index, never for the guarded predecessor) raises an
IndexError, modelled as an error value. -/
def build (df : List Row) (sys : String) : List Int → Except String (List String × List String)
  | [] => Except.ok ([], [])
  | ind :: rest =>
    if hasValidPred df ind then
      match df[(ind - 1).toNat]?, df[ind.toNat]? with
      | some prev, some cur =>
        match build df sys rest with
        | Except.ok (ps, ns) =>
            Except.ok ((sys ++ prev.Dialogue ++ "\n" ++ cur.Dialogue) :: ps, ns)
        | Except.error e => Except.error e
      | _, _ => Except.error "IndexError"
    else
      match build df sys rest with
      | Except.ok (ps, ns) => Except.ok (ps, boundsNotice (ind - 1) :: ns)
      | Except.error e => Except.error e

/-- The input table as read and null-dropped: its rows plus two flags
recording whether the required Speaker and Dialogue columns exist. -/
structure RawTable where
  hasSpeakerCol : Bool
  hasDialogueCol : Bool
  rows : List Row
deriving Repr, DecidableEq

/-- The assembled training dataset (lines 253-254): a single-column
table. -/
structure TrainDataset where
  columns : List String
  rows : List String
deriving Repr, DecidableEq

/-- Dataset assembly of lines 253-254: one column named prompt holding
the built prompt strings in order. -/
def assemble (prompts : List String) : TrainDataset :=
  { columns := ["prompt"], rows := prompts }

/-- The text field name the training configuration reads (line 169,
dataset_text_field of the SFTTrainer call). -/
def dataset_text_field : String := "prompt"

/-- load_data (lines 206-256).  Accessing the Dialogue column (line 210)
fails first if it is missing; accessing the Speaker column (line 227)
fails next; selecting the response-flag column of an unlisted character
(line 233) fails with a KeyError; otherwise the dialogue is cleaned, the
flagged indices are selected, the prompts are built, and the
single-column dataset is returned together with the printed notices. -/
def load_data (character : String) (t : RawTable) : Except String (TrainDataset × List String) :=
  if t.hasDialogueCol = false then Except.error "KeyError: Dialogue"
  else if t.hasSpeakerCol = false then Except.error "KeyError: Speaker"
  else if (character_models_keys.contains character) = false then
    Except.error ("KeyError: " ++ character ++ "_response_flag")
  else
    match build (cleanRows t.rows) (system_prompt character)
        ((indexes_to_take character (cleanRows t.rows)).map Int.ofNat) with
    | Except.ok (ps, ns) => Except.ok (assemble ps, ns)
    | Except.error e => Except.error e

/-- Constructor check of CharacterChatBot.__init__ (lines 33-34): only a
missing (None) character name is rejected; any string, the empty one
included, is accepted. -/
def init_character_check : Option String → Except String String
  | none => Except.error "character_name must be provided."
  | some name => Except.ok name

/-- The training path of the pipeline: the constructor check followed by
load_data (lines 33-51 call load_data only after the check passes). -/
def pipeline (character_name : Option String) (t : RawTable) :
    Except String (TrainDataset × List String) :=
  match init_character_check character_name with
  | Except.error e => Except.error e
  | Except.ok name => load_data name t

/-- The prompt the pipeline builds for a flagged index: the system
prompt, the cleaned dialogue of the predecessor row, one newline, and
the cleaned dialogue of the flagged row. -/
def builtPrompt (character : String) (rows : List Row) (i : Nat) : String :=
  system_prompt character
    ++ remove_paranthesis ((rows.getD (i - 1) default).Dialogue)
    ++ "\n"
    ++ remove_paranthesis ((rows.getD i default).Dialogue)

theorem remove_paranthesis_empty : remove_paranthesis "" = "" := rfl

theorem cleanRows_length (rows : List Row) : (cleanRows rows).length = rows.length :=
  List.length_map _ _

theorem getD_cleanRows_dialogue (rows : List Row) (j : Nat) :
    ((cleanRows rows).getD j default).Dialogue
      = remove_paranthesis ((rows.getD j default).Dialogue) := by
  rw [cleanRows, List.getD_eq_getElem?_getD, List.getD_eq_getElem?_getD, List.getElem?_map]
  cases h : rows[j]? with
  | none =>
    show (default : Row).Dialogue = remove_paranthesis (default : Row).Dialogue
    exact remove_paranthesis_empty.symm
  | some r => simp [cleanRow]

theorem getD_cleanRows_speaker (rows : List Row) (j : Nat) :
    ((cleanRows rows).getD j default).Speaker = (rows.getD j default).Speaker := by
  rw [cleanRows, List.getD_eq_getElem?_getD, List.getD_eq_getElem?_getD, List.getElem?_map]
  cases h : rows[j]? with
  | none => rfl
  | some r => simp [cleanRow]

theorem mem_indexes_to_take {character : String} {df : List Row} {i : Nat} :
    i ∈ indexes_to_take character df ↔
      i < df.length ∧ 0 < i ∧ response_flag character (df.getD i default) = true := by
  rw [indexes_to_take, List.mem_filter, List.mem_range, Bool.and_eq_true, decide_eq_true_iff]
  tauto

/-- Exact description of the builder loop on any list of fetchable
indices: it succeeds, keeps exactly the indices whose predecessor is in
range, and prints one notice for each skipped index, in order. -/
theorem build_spec (df : List Row) (sys : String) :
    ∀ inds : List Int, (∀ ind ∈ inds, 0 ≤ ind ∧ ind < (df.length : Int)) →
      build df sys inds = Except.ok
        ((inds.filter (hasValidPred df)).map
           (fun ind => sys ++ (df.getD (ind - 1).toNat default).Dialogue ++ "\n"
              ++ (df.getD ind.toNat default).Dialogue),
         (inds.filter (fun ind => !hasValidPred df ind)).map
           (fun ind => boundsNotice (ind - 1))) := by
  intro inds
  induction inds with
  | nil => intro _; rfl
  | cons ind rest ih =>
    intro h
    have hind := h ind (by simp)
    have hrest : ∀ i ∈ rest, 0 ≤ i ∧ i < (df.length : Int) := fun i hi => h i (by simp [hi])
    cases hg : hasValidPred df ind with
    | true =>
      have hprop : 0 ≤ ind - 1 ∧ ind - 1 < (df.length : Int) := by
        simpa [hasValidPred] using hg
      have h1 : (ind - 1).toNat < df.length := by omega
      have h2 : ind.toNat < df.length := by omega
      simp only [build, hg, if_true]
      rw [List.getElem?_eq_getElem h1, List.getElem?_eq_getElem h2, ih hrest]
      simp only [List.filter_cons, hg, Bool.not_true, Bool.false_eq_true, if_true, if_false,
        List.map_cons]
      rw [List.getD_eq_getElem _ _ h1, List.getD_eq_getElem _ _ h2]
    | false =>
      simp only [build, hg]
      rw [ih hrest]
      simp [List.filter_cons, hg]

/-- Exact description of load_data on a well-formed table for a listed
character: it returns the single-column dataset of the prompts built at
the selected indices, in transcript order, with no skip notice. -/
theorem load_data_ok (character : String) (rows : List Row)
    (hc : character ∈ character_models_keys) :
    load_data character ⟨true, true, rows⟩ =
      Except.ok (assemble ((indexes_to_take character (cleanRows rows)).map
        (builtPrompt character rows)), []) := by
  have hcontains : character_models_keys.contains character = true :=
    List.elem_eq_true_of_mem hc
  have hvalid : ∀ ind ∈ (indexes_to_take character (cleanRows rows)).map Int.ofNat,
      0 ≤ ind ∧ ind < ((cleanRows rows).length : Int) := by
    intro ind hind
    rw [List.mem_map] at hind
    obtain ⟨i, hi, rfl⟩ := hind
    have hm := mem_indexes_to_take.mp hi
    simp only [Int.ofNat_eq_coe]
    omega
  have hgood : ∀ ind ∈ (indexes_to_take character (cleanRows rows)).map Int.ofNat,
      hasValidPred (cleanRows rows) ind = true := by
    intro ind hind
    rw [List.mem_map] at hind
    obtain ⟨i, hi, rfl⟩ := hind
    have hm := mem_indexes_to_take.mp hi
    rw [hasValidPred, decide_eq_true_iff]
    simp only [Int.ofNat_eq_coe]
    omega
  have hmap : ((indexes_to_take character (cleanRows rows)).map Int.ofNat).map
        (fun ind => system_prompt character
          ++ ((cleanRows rows).getD (ind - 1).toNat default).Dialogue ++ "\n"
          ++ ((cleanRows rows).getD ind.toNat default).Dialogue)
      = (indexes_to_take character (cleanRows rows)).map (builtPrompt character rows) := by
    rw [List.map_map]
    apply List.map_congr_left
    intro i hi
    have hm := mem_indexes_to_take.mp hi
    simp only [Function.comp_apply, Int.ofNat_eq_coe]
    have e1 : ((i : Int) - 1).toNat = i - 1 := by omega
    have e2 : ((i : Int)).toNat = i := by omega
    rw [e1, e2, getD_cleanRows_dialogue, getD_cleanRows_dialogue, builtPrompt]
  simp only [load_data, hcontains]
  norm_num
  rw [build_spec _ _ _ hvalid]
  rw [List.filter_eq_self.mpr hgood,
    List.filter_eq_nil_iff.mpr (by intro a ha; simp [hgood a ha])]
  rw [hmap]
  rfl

theorem splitOnSpace_ne_nil : ∀ l : List Char, splitOnSpace l ≠ [] := by
  intro l
  cases l with
  | nil => simp [splitOnSpace]
  | cons c rest =>
    simp only [splitOnSpace]
    cases h : splitOnSpace rest with
    | nil => simp
    | cons g gs =>
      by_cases hc : c = ' ' <;> simp [hc]

/-- The split of line 211 keeps empty segments, so its length is one more
than the number of space characters in the text. -/
theorem splitOnSpace_length : ∀ l : List Char, (splitOnSpace l).length = 1 + l.count ' ' := by
  intro l
  induction l with
  | nil => rfl
  | cons c rest ih =>
    obtain ⟨g, gs, hsplit⟩ : ∃ g gs, splitOnSpace rest = g :: gs := by
      cases h : splitOnSpace rest with
      | nil => exact absurd h (splitOnSpace_ne_nil rest)
      | cons g gs => exact ⟨g, gs, rfl⟩
    rw [hsplit] at ih
    simp only [splitOnSpace, hsplit]
    by_cases hc : c = ' '
    · subst hc
      simp only [if_pos rfl, List.length_cons] at *
      rw [List.count_cons]
      simp
      omega
    · simp only [if_neg hc, List.length_cons] at *
      rw [List.count_cons]
      have : (c == ' ') = false := by simpa using hc
      rw [this]
      simpa using ih

theorem length_filter_add_length_filter_not {α : Type} (p : α → Bool) :
    ∀ l : List α, (l.filter p).length + (l.filter (fun a => !p a)).length = l.length := by
  intro l
  induction l with
  | nil => rfl
  | cons a l ih =>
    cases h : p a <;> simp only [List.filter_cons, h, Bool.not_true, Bool.not_false,
      Bool.false_eq_true, if_true, if_false, List.length_cons] <;> omega

/-- C1: every emitted training example at flagged index i has a prompt
that begins with the fixed character preamble (the system prompt), then
the cleaned dialogue of row i - 1, then exactly one newline, and ends
with the cleaned dialogue of the flagged row i itself. -/
theorem C1_prompt_structure (character : String) (rows : List Row)
    (ds : TrainDataset) (notices : List String) (k i : Nat) (p : String)
    (hc : character ∈ character_models_keys)
    (hload : load_data character ⟨true, true, rows⟩ = Except.ok (ds, notices))
    (hk : (indexes_to_take character (cleanRows rows))[k]? = some i)
    (hp : ds.rows[k]? = some p) :
    p = system_prompt character
      ++ remove_paranthesis ((rows.getD (i - 1) default).Dialogue)
      ++ "\n"
      ++ remove_paranthesis ((rows.getD i default).Dialogue) := by
  rw [load_data_ok character rows hc] at hload
  injection hload with hpair
  injection hpair with hds hns
  rw [← hds] at hp
  rw [assemble] at hp
  simp only [List.getElem?_map, hk, Option.map_some] at hp
  injection hp with hp
  exact hp.symm

/-- Witness for C1 at a concrete transcript: the example built for the
flagged row 1 is exactly the preamble, the previous cleaned dialogue,
one newline, and the flagged cleaned dialogue. -/
theorem C1_witness :
    ("\nYou are Rachel from the Friends TV Show. Your responses should reflect Rachel\x27s personality and speech patterns.\nx\na b c d e f" : String)
      = system_prompt "Rachel"
        ++ remove_paranthesis ((([Row.mk "A" "x", Row.mk "Rachel" "a b c d e f"]).getD (1 - 1) default).Dialogue)
        ++ "\n"
        ++ remove_paranthesis ((([Row.mk "A" "x", Row.mk "Rachel" "a b c d e f"]).getD 1 default).Dialogue) :=
  C1_prompt_structure "Rachel" [Row.mk "A" "x", Row.mk "Rachel" "a b c d e f"]
    (TrainDataset.mk ["prompt"]
      ["\nYou are Rachel from the Friends TV Show. Your responses should reflect Rachel\x27s personality and speech patterns.\nx\na b c d e f"])
    [] 0 1
    "\nYou are Rachel from the Friends TV Show. Your responses should reflect Rachel\x27s personality and speech patterns.\nx\na b c d e f"
    (by decide) rfl rfl rfl

/-- C2: a row of the cleaned transcript is selected as a training target
for a (listed) character exactly when its Speaker equals the character,
the word count of its cleaned dialogue is strictly greater than 5, and
its index is positive. -/
theorem C2_selection (character : String) (rows : List Row) (i : Nat)
    (hc : character ∈ character_models_keys)
    (hi : i < rows.length) :
    i ∈ indexes_to_take character (cleanRows rows) ↔
      ((cleanRows rows).getD i default).Speaker = character
      ∧ 5 < number_of_words (((cleanRows rows).getD i default).Dialogue)
      ∧ 0 < i := by
  rw [mem_indexes_to_take, cleanRows_length]
  simp only [response_flag, Bool.and_eq_true, beq_iff_eq, decide_eq_true_iff, hi, true_and]
  tauto

/-- Witness for C2 at a concrete transcript: row 1 is selected for
Rachel (speaker matches, six words, positive index). -/
theorem C2_witness :
    1 ∈ indexes_to_take "Rachel" (cleanRows [Row.mk "A" "x", Row.mk "Rachel" "a b c d e f"]) :=
  (C2_selection "Rachel" [Row.mk "A" "x", Row.mk "Rachel" "a b c d e f"] 1
    (by decide) (by decide)).mpr (by decide)

/-- C3 counterexample: the word count of the empty string is not 0 (it
is 1, the single empty segment produced by splitting on the literal
space), refuting the claim that the selector counts
whitespace-delimited tokens. -/
theorem C3_counterexample : ¬ (number_of_words "" = 0) := by decide

/-- C3 amended: the word count used by the selector is the number of
segments obtained by splitting the stripped dialogue on the literal
single space character, which is one plus the number of space
characters of the stripped text; in particular the empty string and a
whitespace-only string have word count 1, not 0. -/
theorem C3_word_count_amended :
    (∀ s : String, number_of_words s = 1 + (pyStrip s.data).count ' ')
    ∧ number_of_words "" = 1 ∧ number_of_words "   " = 1 := by
  refine ⟨fun s => ?_, by decide, by decide⟩
  rw [number_of_words, splitOnSpace_length]

/-- C4: for every input string the cleaner output contains no substring
matching the non-greedy parenthetical pattern (an opening parenthesis,
then non-newline characters, then a closing parenthesis), and an input
containing no parenthesis is returned unchanged. -/
theorem C4_cleaner (t : String) :
    (¬ ∃ pre mid post : List Char,
        (remove_paranthesis t).data = pre ++ '(' :: (mid ++ ')' :: post) ∧ '\n' ∉ mid)
    ∧ ((∀ c ∈ t.data, c ≠ '(' ∧ c ≠ ')') → remove_paranthesis t = t) := by
  constructor
  · intro hex
    have h1 : hasMatch (remove_paranthesis t).data = true := (hasMatch_iff _).mpr hex
    have h2 : hasMatch (remove_paranthesis t).data = false := by
      show hasMatch (rpFuel t.data.length t.data) = false
      exact hasMatch_rpFuel _ _ (Nat.le_refl _)
    rw [h1] at h2
    cases h2
  · intro h
    show String.mk (rpFuel t.data.length t.data) = t
    rw [rpFuel_id_of_no_open _ _ (Nat.le_refl _) (fun c hc => (h c hc).1)]

/-- Witness for C4 at concrete inputs: the cleaned form of a string with
a parenthetical span has no pattern match, and a parenthesis-free
string is returned unchanged. -/
theorem C4_witness :
    (¬ ∃ pre mid post : List Char,
        (remove_paranthesis "a(b)c").data = pre ++ '(' :: (mid ++ ')' :: post) ∧ '\n' ∉ mid)
    ∧ remove_paranthesis "abc" = "abc" :=
  ⟨(C4_cleaner "a(b)c").1, (C4_cleaner "abc").2 (by decide)⟩

/-- C5: on any list of fetchable indices, for every index whose
predecessor index is outside the valid row range the builder emits no
example, raises no exception, emits the diagnostic notice naming the
offending index, continues with the remaining indices, and the emitted
example count is the index count minus the number of such skips. -/
theorem C5_predecessor_skip (df : List Row) (sys : String) (inds : List Int)
    (h : ∀ ind ∈ inds, 0 ≤ ind ∧ ind < (df.length : Int)) :
    build df sys inds = Except.ok
      ((inds.filter (hasValidPred df)).map
         (fun ind => sys ++ (df.getD (ind - 1).toNat default).Dialogue ++ "\n"
            ++ (df.getD ind.toNat default).Dialogue),
       (inds.filter (fun ind => !hasValidPred df ind)).map
         (fun ind => boundsNotice (ind - 1)))
    ∧ (inds.filter (hasValidPred df)).length
        = inds.length - (inds.filter (fun ind => !hasValidPred df ind)).length := by
  refine ⟨build_spec df sys inds h, ?_⟩
  have := length_filter_add_length_filter_not (hasValidPred df) inds
  omega

/-- Witness for C5 at a concrete input: flagged index 0 of a one-row
table has predecessor index -1, so the builder returns zero examples
and one notice. -/
theorem C5_witness :
    (∀ ind ∈ ([0] : List Int), 0 ≤ ind ∧ ind < (([Row.mk "A" "x"] : List Row).length : Int))
    ∧ (build [Row.mk "A" "x"] "" [0] = Except.ok
        ((([0] : List Int).filter (hasValidPred [Row.mk "A" "x"])).map
           (fun ind => "" ++ (([Row.mk "A" "x"] : List Row).getD (ind - 1).toNat default).Dialogue
              ++ "\n" ++ (([Row.mk "A" "x"] : List Row).getD ind.toNat default).Dialogue),
         (([0] : List Int).filter (fun ind => !hasValidPred [Row.mk "A" "x"] ind)).map
           (fun ind => boundsNotice (ind - 1)))
      ∧ (([0] : List Int).filter (hasValidPred [Row.mk "A" "x"])).length
          = ([0] : List Int).length
            - (([0] : List Int).filter (fun ind => !hasValidPred [Row.mk "A" "x"] ind)).length) :=
  ⟨by decide, C5_predecessor_skip [Row.mk "A" "x"] "" [0] (by decide)⟩

/-- C6 counterexample: the constructor check accepts the empty character
name (only None is rejected), so an empty name does not fail fast at
pipeline start; the failure happens only later, inside load_data, as
the KeyError on the missing response-flag column. -/
theorem C6_counterexample :
    init_character_check (some "") = Except.ok ""
    ∧ load_data "" ⟨true, true, [Row.mk "Rachel" "a b c d e f"]⟩
        = Except.error "KeyError: _response_flag" :=
  ⟨rfl, rfl⟩

/-- C6 amended: a missing (None) character name fails fast at
construction with a ValueError and nothing runs; an empty character
name is accepted by the constructor check and the pipeline fails only
inside load_data with a KeyError on the empty-name response-flag
column, so no dataset is produced in either case. -/
theorem C6_amended (t : RawTable) (hd : t.hasDialogueCol = true) (hs : t.hasSpeakerCol = true) :
    pipeline none t = Except.error "character_name must be provided."
    ∧ init_character_check (some "") = Except.ok ""
    ∧ pipeline (some "") t = Except.error "KeyError: _response_flag" := by
  cases t with
  | mk s d r =>
    simp only at hd hs
    subst hd
    subst hs
    exact ⟨rfl, rfl, rfl⟩

/-- Witness for C6 at a concrete table. -/
theorem C6_witness :
    pipeline none (RawTable.mk true true []) = Except.error "character_name must be provided."
    ∧ init_character_check (some "") = Except.ok ""
    ∧ pipeline (some "") (RawTable.mk true true []) = Except.error "KeyError: _response_flag" :=
  C6_amended ⟨true, true, []⟩ rfl rfl

/-- C7 counterexample: on an empty input table that has the required
columns the pipeline raises no error and silently returns the empty
single-column dataset, refuting the claim that an empty table raises
before row processing. -/
theorem C7_counterexample :
    load_data "Rachel" ⟨true, true, []⟩ = Except.ok (TrainDataset.mk ["prompt"] [], []) := rfl

/-- C7 amended: a table missing the Dialogue column fails with a
KeyError, a table missing the Speaker column fails with a KeyError, and
zero examples are produced in both cases; but an empty table with the
required columns does not raise: it silently yields the empty
single-column dataset. -/
theorem C7_amended (character : String) (t : RawTable) :
    (t.hasDialogueCol = false → load_data character t = Except.error "KeyError: Dialogue")
    ∧ (t.hasDialogueCol = true → t.hasSpeakerCol = false →
        load_data character t = Except.error "KeyError: Speaker")
    ∧ (t.hasDialogueCol = true → t.hasSpeakerCol = true → t.rows = [] →
        character ∈ character_models_keys →
        load_data character t = Except.ok (TrainDataset.mk ["prompt"] [], [])) := by
  cases t with
  | mk s d r =>
    refine ⟨fun hd => ?_, fun hd hs => ?_, fun hd hs hr hc => ?_⟩
    · simp only at hd
      subst hd
      rfl
    · simp only at hd hs
      subst hd
      subst hs
      rfl
    · simp only at hd hs hr
      subst hd
      subst hs
      subst hr
      rw [load_data_ok character [] hc]
      rfl

/-- Witness for C7 at a concrete empty table with both columns. -/
theorem C7_witness :
    load_data "Monica" (RawTable.mk true true []) = Except.ok (TrainDataset.mk ["prompt"] [], []) :=
  (C7_amended "Monica" ⟨true, true, []⟩).2.2 rfl rfl rfl (by decide)

/-- C8: the emitted dataset rows are exactly the prompts of the flagged
indices in ascending index order, which is the original transcript
order restricted to the flagged indices. -/
theorem C8_output_order (character : String) (rows : List Row)
    (ds : TrainDataset) (notices : List String)
    (hc : character ∈ character_models_keys)
    (hload : load_data character ⟨true, true, rows⟩ = Except.ok (ds, notices)) :
    ds.rows = (indexes_to_take character (cleanRows rows)).map (builtPrompt character rows)
    ∧ List.Sorted (· < ·) (indexes_to_take character (cleanRows rows))
    ∧ notices = [] := by
  rw [load_data_ok character rows hc] at hload
  injection hload with hpair
  injection hpair with hds hns
  refine ⟨by rw [← hds]; rfl, ?_, hns.symm⟩
  rw [indexes_to_take]
  exact List.Pairwise.sublist (List.filter_sublist _) (List.sorted_lt_range _)

/-- Witness for C8 at a concrete transcript. -/
theorem C8_witness :
    (TrainDataset.mk ["prompt"]
        ["\nYou are Rachel from the Friends TV Show. Your responses should reflect Rachel\x27s personality and speech patterns.\nx\na b c d e f"]).rows
      = (indexes_to_take "Rachel"
          (cleanRows [Row.mk "A" "x", Row.mk "Rachel" "a b c d e f"])).map
          (builtPrompt "Rachel" [Row.mk "A" "x", Row.mk "Rachel" "a b c d e f"])
    ∧ List.Sorted (· < ·)
        (indexes_to_take "Rachel" (cleanRows [Row.mk "A" "x", Row.mk "Rachel" "a b c d e f"]))
    ∧ ([] : List String) = [] :=
  C8_output_order "Rachel" [Row.mk "A" "x", Row.mk "Rachel" "a b c d e f"]
    (TrainDataset.mk ["prompt"]
      ["\nYou are Rachel from the Friends TV Show. Your responses should reflect Rachel\x27s personality and speech patterns.\nx\na b c d e f"])
    [] (by decide) rfl

/-- C9: for every ordered sequence of prompt strings, the empty one
included, the assembler produces a dataset with exactly one column
whose name equals the text field name the training configuration
reads. -/
theorem C9_assembler (ps : List String) :
    (assemble ps).columns = [dataset_text_field]
    ∧ (assemble ps).columns.length = 1
    ∧ (assemble ps).rows = ps :=
  ⟨rfl, rfl, rfl⟩

/-- C10: every non-None character name outside the six hardcoded keys
passes the constructor check, but load_data fails with a KeyError on
the missing response-flag column, so no dataset is produced for an
unlisted character. -/
theorem C10_unlisted_character (character : String) (rows : List Row)
    (hc : character ∉ character_models_keys) :
    init_character_check (some character) = Except.ok character
    ∧ load_data character ⟨true, true, rows⟩
        = Except.error ("KeyError: " ++ character ++ "_response_flag") := by
  refine ⟨rfl, ?_⟩
  have hcontains : character_models_keys.contains character = false := by
    cases h : character_models_keys.contains character with
    | false => rfl
    | true => exact absurd (List.mem_of_elem_eq_true h) hc
  simp only [load_data, hcontains]
  norm_num

/-- Witness for C10 at a concrete unlisted character. -/
theorem C10_witness :
    init_character_check (some "Gunther") = Except.ok "Gunther"
    ∧ load_data "Gunther" (RawTable.mk true true [])
        = Except.error ("KeyError: " ++ "Gunther" ++ "_response_flag") :=
  C10_unlisted_character "Gunther" [] (by decide)

end Friends
